import Mathlib

/-!
Verification development for the KF3 Grain Ticket Manager repository.

The definitions below are a shallow embedding of the repository's
contract-allocation core:

* `normalizeLocation`, `locationsMatch`, `findBestContract`,
  `createSpotSaleContract` embed `src/lib/contractMatcher.ts` (the file
  shipped inside `src/src/lib/export.ts`);
* `handleApproveDecision`, `handleApproveEffects`, `handleOverfillRoll`
  embed the matcher-based `ReviewQueuePage.handleApprove` /
  `handleOverfillDecision`;
* `handleApproveV1` embeds the validating review-queue variant's
  `handleApprove` (the version with required-field checks);
* `update_contract_bushels` embeds the Postgres trigger function of the
  same name from the schema migration.

Numeric columns (`bushels`, `delivered_bushels`, ...) are Postgres
`numeric` values and are modelled as `ℚ`.  Dates that the code only ever
feeds through `new Date(x).getTime()` are modelled as their parsed epoch
value (`Option Nat`, `none` = SQL NULL / JS null).  JavaScript's stable
`Array.prototype.sort` is modelled with `List.mergeSort` (a stable merge
sort); the comparator `aDate - bDate` with both dates missing returns
`NaN`, which engines treat as "equal", i.e. the order `endLe` below.
Impure inputs (`Math.random()`, `toLocaleDateString()`) are passed in as
explicit arguments.
-/

/-- Lifecycle status of a ticket (`ticket_status` enum in the schema). -/
inductive TStatus where
  | needs_review
  | approved
  | rejected
  | hold
deriving DecidableEq, Repr

/-- The contract row fields used by the allocation core
(`contracts` table / `Database..contracts.Row`).  `id` abstracts the uuid;
`end_date` holds the parsed `getTime` value of the end-date string, `none`
for NULL.  `is_spot_sale` is the spot-sale marker column referenced by the
matcher code. -/
structure Contract where
  id : Nat
  contract_number : String
  crop : String
  owner : Option String
  destination : String
  through : Option String
  contracted_bushels : ℚ
  delivered_bushels : ℚ
  percent_filled : Option ℚ
  end_date : Option Nat
  priority : Nat
  overfill_allowed : Bool
  is_template : Bool
  is_spot_sale : Bool
deriving DecidableEq, Repr

/-- The ticket fields the matcher consumes (`findBestContract`'s first
argument). -/
structure DeliveryInfo where
  person : String
  crop : String
  through : String
  delivery_location : String
deriving DecidableEq, Repr

/-- ASCII lower-case letter or digit: the characters kept by the source's
regex replace of `[^a-z0-9]` with the empty string. -/
def isLowerAlnum (c : Char) : Bool :=
  (decide ('a' ≤ c) && decide (c ≤ 'z')) || (decide ('0' ≤ c) && decide (c ≤ '9'))

/-- `normalizeLocation` from the matcher module: lower-case, strip every
non-alphanumeric character, trim. -/
def normalizeLocation (location : String) : String :=
  (String.mk (location.toLower.data.filter isLowerAlnum)).trim

/-- `locationsMatch` from the matcher module: equality of normalized
locations. -/
def locationsMatch (loc1 loc2 : String) : Bool :=
  normalizeLocation loc1 == normalizeLocation loc2

/-- The candidate filter inside `findBestContract`, embedded clause by
clause.  Note the source computes `notSpot = !c.is_spot_sale` and then
returns `... && !notSpot`. -/
def matcherFilter (ticket : DeliveryInfo) (c : Contract) : Bool :=
  let personMatch := c.owner == some ticket.person
  let cropMatch := c.crop == ticket.crop
  let throughMatch := c.through == some ticket.through
  let locationMatch := locationsMatch c.destination ticket.delivery_location
  let notFilled := decide ((c.percent_filled.getD 0) < 100)
  let notSpot := !c.is_spot_sale
  personMatch && cropMatch && throughMatch && locationMatch && notFilled && !notSpot

/-- The source's sort comparator `aDate - bDate` (missing end date =
`Infinity`; two missing dates compare as equal). -/
def endLe (a b : Contract) : Bool :=
  match a.end_date, b.end_date with
  | some x, some y => decide (x ≤ y)
  | some _, none => true
  | none, some _ => false
  | none, none => true

/-- `MatchResult.matchType` values declared by the matcher module. -/
inductive MatchType where
  | exact
  | fuzzy
  | spot
  | overfill
deriving DecidableEq, Repr

/-- `MatchResult` returned by `findBestContract`. -/
structure MatchResult where
  contract : Option Contract
  matchType : MatchType
  confidence : Nat
deriving DecidableEq, Repr

/-- `findBestContract` from the matcher module: filter the candidates,
return the spot shape when none remain, otherwise the head of the list
sorted by nearest end date. -/
def findBestContract (ticket : DeliveryInfo) (contracts : List Contract) : MatchResult :=
  let matchingContracts := contracts.filter (matcherFilter ticket)
  if matchingContracts.isEmpty then
    { contract := none, matchType := MatchType.spot, confidence := 0 }
  else
    let sorted := matchingContracts.mergeSort endLe
    { contract := sorted.head?, matchType := MatchType.exact, confidence := 100 }

/-- The ticket fields `createSpotSaleContract` consumes. -/
structure SpotTicketInfo where
  person : String
  crop : String
  through : String
  delivery_location : String
  ticket_date : String
  crop_year : String
deriving DecidableEq, Repr

/-- The insert payload produced by `createSpotSaleContract` (a
`contracts` Insert object, so dates stay strings here). -/
structure ContractInsert where
  contract_number : String
  crop : String
  owner : String
  through : String
  destination : String
  contracted_bushels : ℚ
  start_date : String
  end_date : String
  priority : Nat
  overfill_allowed : Bool
  is_template : Bool
  is_spot_sale : Bool
  notes : String
  crop_year : String
deriving DecidableEq, Repr

/-- The random suffix pipeline of the generated contract number:
`randStr.substr(2, 6).toUpperCase()` applied to the output of
`Math.random().toString(36)`. -/
def spotRandSuffix (randStr : String) : String :=
  String.mk (((randStr.data.drop 2).take 6).map Char.toUpper)

/-- `createSpotSaleContract` from the matcher module.  The two impure
inputs are passed explicitly: `dateStr` is
`new Date(ticket.ticket_date).toLocaleDateString()` and `randStr` is
`Math.random().toString(36)`. -/
def createSpotSaleContract (ticket : SpotTicketInfo) (dateStr randStr : String) :
    ContractInsert :=
  { contract_number := "SPOT-" ++ dateStr ++ "-" ++ spotRandSuffix randStr
    crop := ticket.crop
    owner := ticket.person
    through := ticket.through
    destination := ticket.delivery_location
    contracted_bushels := 0
    start_date := ticket.ticket_date
    end_date := ticket.ticket_date
    priority := 10
    overfill_allowed := true
    is_template := false
    is_spot_sale := true
    notes := "Auto-created spot sale on " ++ dateStr
    crop_year := ticket.crop_year }

/-- Base-36 digit character, as produced by JavaScript number printing
(0-9 then a-z). -/
def base36DigitChar (d : Nat) : Char :=
  if d < 10 then Char.ofNat (48 + d) else Char.ofNat (87 + d)

/-- Fuel-bounded base-36 fractional expansion of a rational in `[0, 1)`,
stopping when the remainder reaches zero. -/
def base36FracDigits : Nat → ℚ → List Char
  | 0, _ => []
  | fuel + 1, r =>
    if r = 0 then []
    else
      let d : Nat := (Int.floor (r * 36)).toNat
      base36DigitChar d :: base36FracDigits fuel (r * 36 - (Int.floor (r * 36) : ℤ))

/-- Modelled from JavaScript semantics: `Number.prototype.toString(36)`
for a value in `[0, 1)` prints `"0"` for zero and otherwise `"0."`
followed by the base-36 digits of the fraction (exact for the values
where the expansion terminates, e.g. `0.5 = "0.i"`).  `Math.random()`
values are dyadic rationals, whose expansion terminates within 27 digits;
the fuel of 60 is more than enough. -/
def jsToString36 (r : ℚ) : String :=
  if r = 0 then "0" else String.mk ('0' :: '.' :: base36FracDigits 60 r)

/-- The ticket row fields the review queue uses. -/
structure TicketRow where
  id : Nat
  ticket_date : String
  person : String
  crop : String
  bushels : ℚ
  delivery_location : String
  through : String
  contract_id : Option Nat
  status : TStatus
  crop_year : String
deriving DecidableEq, Repr

/-- The projection of a ticket row passed to `findBestContract`. -/
def deliveryInfo (t : TicketRow) : DeliveryInfo :=
  { person := t.person, crop := t.crop, through := t.through
    delivery_location := t.delivery_location }

/-- The projection of a ticket row passed to `createSpotSaleContract`. -/
def spotInfo (t : TicketRow) : SpotTicketInfo :=
  { person := t.person, crop := t.crop, through := t.through
    delivery_location := t.delivery_location, ticket_date := t.ticket_date
    crop_year := t.crop_year }

/-- Which of the three control-flow arms the matcher-based `handleApprove`
takes for a ticket. -/
inductive ApproveOutcome where
  | spotSale
  | overfillPrompt (c : Contract)
  | approveTo (c : Contract)
deriving DecidableEq, Repr

/-- The decision structure of the matcher-based `handleApprove`: spot-sale
branch when the match result is the spot shape, otherwise the overfill
check `delivered_bushels + ticket.bushels > contracted_bushels &&
!overfill_allowed` decides between the overfill modal and direct
approval.  (The `none` fallthrough mirrors the source's non-null
assertion `matchResult.contract!`; it is unreachable because a non-spot
result always carries a contract.) -/
def handleApproveDecision (ticket : TicketRow) (contracts : List Contract) :
    ApproveOutcome :=
  let matchResult := findBestContract (deliveryInfo ticket) contracts
  if matchResult.matchType = MatchType.spot then ApproveOutcome.spotSale
  else
    match matchResult.contract with
    | some contract =>
      let newDelivered := contract.delivered_bushels + ticket.bushels
      let willOverfill := decide (newDelivered > contract.contracted_bushels)
      if willOverfill && !contract.overfill_allowed then
        ApproveOutcome.overfillPrompt contract
      else ApproveOutcome.approveTo contract
    | none => ApproveOutcome.spotSale

/-- A store write issued by a review-queue handler, in issue order. -/
inductive DbEffect where
  | insertContract (c : ContractInsert)
  | updateTicket (id : Nat) (status : TStatus) (contract_id : Option Nat)
deriving DecidableEq, Repr

/-- The sequence of store writes the matcher-based `handleApprove` issues
(success path; `newId` is the id the store assigns to the inserted spot
contract, `dateStr`/`randStr` are the impure inputs of
`createSpotSaleContract`).  In the spot branch the contract insert is
issued before the ticket update that references `newId`; the overfill
branch issues no writes (it only opens the modal). -/
def handleApproveEffects (ticket : TicketRow) (contracts : List Contract)
    (newId : Nat) (dateStr randStr : String) : List DbEffect :=
  match handleApproveDecision ticket contracts with
  | ApproveOutcome.spotSale =>
    let spotContract := createSpotSaleContract (spotInfo ticket) dateStr randStr
    [DbEffect.insertContract spotContract,
     DbEffect.updateTicket ticket.id TStatus.approved (some newId)]
  | ApproveOutcome.overfillPrompt _ => []
  | ApproveOutcome.approveTo c =>
    [DbEffect.updateTicket ticket.id TStatus.approved (some c.id)]

/-- The `remainingContracts` filter of the `roll` branch of
`handleOverfillDecision`, embedded clause by clause: same owner, crop and
`through`, not yet 100% filled, and not the matched contract itself.
Destination and the spot-sale flag are not consulted. -/
def rollFilter (sel : TicketRow) (matched : Contract) (contracts : List Contract) :
    List Contract :=
  contracts.filter fun c =>
    (c.id != matched.id) && (c.owner == some sel.person) && (c.crop == sel.crop) &&
    (c.through == some sel.through) && decide ((c.percent_filled.getD 0) < 100)

/-- Terminal outcome of the `roll` branch. -/
inductive RollOutcome where
  | bindTo (c : Contract)
  | spotFallback (sc : ContractInsert)
deriving DecidableEq, Repr

/-- The `roll` branch of `handleOverfillDecision`: re-run the matcher to
recover the matched contract (`none` mirrors the source's non-null
assertion failing), filter the other candidates with `rollFilter`, fall
back to the spot-sale synthesizer when none remain, otherwise bind to the
head of the list sorted by nearest end date. -/
def handleOverfillRoll (sel : TicketRow) (contracts : List Contract)
    (dateStr randStr : String) : Option RollOutcome :=
  match (findBestContract (deliveryInfo sel) contracts).contract with
  | none => none
  | some contract =>
    let remainingContracts := rollFilter sel contract contracts
    if remainingContracts.isEmpty then
      some (RollOutcome.spotFallback
        (createSpotSaleContract (spotInfo sel) dateStr randStr))
    else
      match (remainingContracts.mergeSort endLe).head? with
      | some nextContract => some (RollOutcome.bindTo nextContract)
      | none =>
        some (RollOutcome.spotFallback
          (createSpotSaleContract (spotInfo sel) dateStr randStr))

/-- The form fields validated by the validating review-queue variant's
`handleApprove`. -/
structure ApprovalForm where
  person : String
  crop : String
  bushels : ℚ
  delivery_location : String
  origin : String
deriving DecidableEq, Repr

/-- The validating review-queue variant's `handleApprove`: each required
field is checked in source order and a failure returns the alert message
before any store write; on success the single write marks the ticket
approved and bound to the matched contract id (or null). -/
def handleApproveV1 (form : ApprovalForm) (ticketId : Nat)
    (matchId : Option Nat) : Except String (List DbEffect) :=
  if form.person.trim = "" then Except.error "Person is required"
  else if form.crop.trim = "" then Except.error "Crop is required"
  else if form.bushels ≤ 0 then Except.error "Bushels must be > 0"
  else if form.delivery_location.trim = "" then Except.error "Delivery location is required"
  else if form.origin.trim = "" then Except.error "Origin is required"
  else Except.ok [DbEffect.updateTicket ticketId TStatus.approved matchId]

/-- Ticket table row as seen by the `update_contract_bushels` trigger
(fields the trigger and the ledger invariant read; `deleted` is the
soft-delete flag used by the application queries). -/
structure DBTicket where
  id : Nat
  bushels : ℚ
  contract_id : Option Nat
  status : TStatus
  deleted : Bool
deriving DecidableEq, Repr

/-- Contract row as seen by the trigger. -/
structure DBContract where
  id : Nat
  contracted_bushels : ℚ
  delivered_bushels : ℚ
deriving DecidableEq, Repr

/-- Database state for the trigger model. -/
structure DB where
  tickets : List DBTicket
  contracts : List DBContract
deriving DecidableEq, Repr

/-- The subquery of the trigger's first branch:
`SELECT COALESCE(SUM(bushels), 0) FROM tickets WHERE contract_id = cid AND
status = 'approved'`. -/
def sumApprovedFor (tickets : List DBTicket) (cid : Nat) : ℚ :=
  ((tickets.filter fun t =>
      t.contract_id == some cid && t.status == TStatus.approved).map
    (fun t => t.bushels)).sum

/-- The subquery of the trigger's second branch, which additionally
excludes the row id `COALESCE(NEW.id, OLD.id)`. -/
def sumApprovedForExcl (tickets : List DBTicket) (cid tid : Nat) : ℚ :=
  ((tickets.filter fun t =>
      t.contract_id == some cid && t.status == TStatus.approved &&
        t.id != tid).map
    (fun t => t.bushels)).sum

/-- `UPDATE contracts SET delivered_bushels = v WHERE id = cid`. -/
def setDelivered (contracts : List DBContract) (cid : Nat) (v : ℚ) :
    List DBContract :=
  contracts.map fun c =>
    if c.id = cid then { c with delivered_bushels := v } else c

/-- A row-level operation on the tickets table, as the trigger sees it
(`TG_OP` with the OLD/NEW records). -/
inductive TgOp where
  | ins (new : DBTicket)
  | upd (old new : DBTicket)
  | del (old : DBTicket)
deriving DecidableEq, Repr

/-- The trigger function `update_contract_bushels`, an AFTER trigger: the
tickets list passed in already reflects the operation.  Both IF blocks of
the source run in sequence: the first recomputes the NEW contract when
the post-image is approved and bound, the second then recomputes the OLD
contract excluding the row id `COALESCE(NEW.id, OLD.id)`. -/
def update_contract_bushels (op : TgOp) (db : DB) : DB :=
  let db1 :=
    match op with
    | TgOp.ins new | TgOp.upd _ new =>
      if new.status = TStatus.approved then
        match new.contract_id with
        | some nc =>
          { db with contracts :=
              setDelivered db.contracts nc (sumApprovedFor db.tickets nc) }
        | none => db
      else db
    | TgOp.del _ => db
  match op with
  | TgOp.upd old new =>
    match old.contract_id with
    | some oc =>
      { db1 with contracts :=
          setDelivered db1.contracts oc (sumApprovedForExcl db.tickets oc new.id) }
    | none => db1
  | TgOp.del old =>
    match old.contract_id with
    | some oc =>
      { db1 with contracts :=
          setDelivered db1.contracts oc (sumApprovedForExcl db.tickets oc old.id) }
    | none => db1
  | TgOp.ins _ => db1

/-- The row operation applied to the tickets table itself (what has
already happened before the AFTER trigger fires). -/
def applyTicketOp (op : TgOp) (tickets : List DBTicket) : List DBTicket :=
  match op with
  | TgOp.ins new => tickets ++ [new]
  | TgOp.upd old new => tickets.map fun t => if t.id = old.id then new else t
  | TgOp.del old => tickets.filter fun t => t.id ≠ old.id

/-- A ticket mutation followed by its AFTER trigger. -/
def runTicketOp (op : TgOp) (db : DB) : DB :=
  update_contract_bushels op { db with tickets := applyTicketOp op db.tickets }

/-- Modelled from the spec: the ledger aggregation the invariant talks
about — the sum of `bushels` over tickets bound to the contract with
`status = approved` that are not soft-deleted. -/
def ledgerSpecSum (tickets : List DBTicket) (cid : Nat) : ℚ :=
  ((tickets.filter fun t =>
      t.contract_id == some cid && t.status == TStatus.approved &&
        !t.deleted).map
    (fun t => t.bushels)).sum

/-- Modelled from the spec: every contract's stored `delivered_bushels`
equals the independent recomputation `ledgerSpecSum`. -/
def ledgerConsistent (db : DB) : Prop :=
  ∀ c ∈ db.contracts, c.delivered_bushels = ledgerSpecSum db.tickets c.id

instance : DecidablePred ledgerConsistent := fun db =>
  inferInstanceAs (Decidable (∀ c ∈ db.contracts, _))

/-- Modelled from the spec: the §4.1 eligibility predicate exactly as the
claim states it — crop equal, owner equal, `through` equal or the
wildcard `Any`, destination equal under normalization, strictly less than
100% filled, and not itself a spot-sale contract. -/
def specEligible (ticket : DeliveryInfo) (c : Contract) : Bool :=
  (c.crop == ticket.crop) && (c.owner == some ticket.person) &&
  (c.through == some ticket.through || c.through == some "Any") &&
  (normalizeLocation c.destination == normalizeLocation ticket.delivery_location) &&
  decide ((c.percent_filled.getD 0) < 100) && !c.is_spot_sale

/-- ASCII upper-case letter or digit. -/
def isUpperAlnum (c : Char) : Bool :=
  (decide ('A' ≤ c) && decide (c ≤ 'Z')) || (decide ('0' ≤ c) && decide (c ≤ '9'))

/-- Sample delivery used in concrete evaluations. -/
abbrev deliveryKarl : DeliveryInfo :=
  { person := "Karl", crop := "Corn", through := "Akron"
    delivery_location := "Elevator-A" }

/-- Sample non-spot contract matching `deliveryKarl` on every §4.1
condition. -/
abbrev contractKarl : Contract :=
  { id := 1, contract_number := "C-1", crop := "Corn", owner := some "Karl"
    destination := "Elevator-A", through := some "Akron"
    contracted_bushels := 1000, delivered_bushels := 0
    percent_filled := some 0, end_date := none, priority := 5
    overfill_allowed := false, is_template := false, is_spot_sale := false }

/-- Sample ticket row used in concrete evaluations (60 bushels of Corn
through Akron to Elevator-A for Karl). -/
abbrev rollTicket : TicketRow :=
  { id := 7, ticket_date := "2025-10-01", person := "Karl", crop := "Corn"
    bushels := 60, delivery_location := "Elevator-A", through := "Akron"
    contract_id := none, status := TStatus.needs_review, crop_year := "2025" }

/-- Sample contract the code's matcher accepts (its filter keeps spot-sale
rows): 990 of 1000 bushels delivered, overfill disallowed. -/
abbrev matchedSpot : Contract :=
  { id := 1, contract_number := "S-1", crop := "Corn", owner := some "Karl"
    destination := "Elevator-A", through := some "Akron"
    contracted_bushels := 1000, delivered_bushels := 990
    percent_filled := some 99, end_date := some 100, priority := 5
    overfill_allowed := false, is_template := false, is_spot_sale := true }

/-- Sample contract for the roll branch: same owner, crop and `through`,
different destination, not a spot sale. -/
abbrev otherDest : Contract :=
  { id := 2, contract_number := "C-2", crop := "Corn", owner := some "Karl"
    destination := "Somewhere-Else", through := some "Akron"
    contracted_bushels := 500, delivered_bushels := 0
    percent_filled := some 0, end_date := some 50, priority := 5
    overfill_allowed := false, is_template := false, is_spot_sale := false }

/-- Sample ticket info for the spot-sale synthesizer. -/
abbrev spotTicketSample : SpotTicketInfo :=
  { person := "Anthony", crop := "Soybeans", through := "RVC"
    delivery_location := "Cargill-Lacon", ticket_date := "2025-10-01"
    crop_year := "2025" }

/-- Sample fully filled-in approval form. -/
abbrev validForm : ApprovalForm :=
  { person := "Karl", crop := "Corn", bushels := 500
    delivery_location := "Elevator-A", origin := "Farm-1" }

/-- Sample approved ticket row bound to contract 1 with 100 bushels. -/
abbrev t100 : DBTicket :=
  { id := 1, bushels := 100, contract_id := some 1
    status := TStatus.approved, deleted := false }

/-- `t100` after an edit raising its bushels to 120 (still approved,
still bound to contract 1, not deleted). -/
abbrev t120 : DBTicket := { t100 with bushels := 120 }

/-- Sample database: contract 1 with a consistent ledger (one approved
bound ticket of 100 bushels). -/
abbrev dbC1 : DB :=
  { tickets := [t100]
    contracts := [{ id := 1, contracted_bushels := 1000, delivered_bushels := 100 }] }

theorem endLe_trans (a b c : Contract) (h1 : endLe a b = true)
    (h2 : endLe b c = true) : endLe a c = true := by
  cases ha : a.end_date <;> cases hb : b.end_date <;> cases hc : c.end_date <;>
    simp_all [endLe] <;> omega

theorem endLe_total (a b : Contract) : (endLe a b || endLe b a) = true := by
  cases ha : a.end_date <;> cases hb : b.end_date <;> simp_all [endLe] <;> omega

theorem endLe_refl (a : Contract) : endLe a a = true := by
  have h := endLe_total a a
  simpa using h

/-- The head of `mergeSort endLe` is an element of the list that is
`endLe`-below every element. -/
theorem mergeSort_head_min (l : List Contract) (c : Contract) (tl : List Contract)
    (h : l.mergeSort endLe = c :: tl) :
    c ∈ l ∧ ∀ d ∈ l, endLe c d = true := by
  have hperm := List.mergeSort_perm l endLe
  have hmem : c ∈ l := hperm.mem_iff.mp (by simp [h])
  refine ⟨hmem, ?_⟩
  intro d hd
  have hd2 : d ∈ c :: tl := by
    rw [← h]
    exact hperm.mem_iff.mpr hd
  rcases List.mem_cons.mp hd2 with rfl | hdtl
  · exact endLe_refl d
  · have hs := List.sorted_mergeSort endLe_trans endLe_total l
    rw [h] at hs
    exact (List.pairwise_cons.mp hs).1 d hdtl

/-- `findBestContract` takes exactly one of two shapes: the spot shape
with no contract when the filter keeps nothing, or the exact shape whose
contract is an `endLe`-minimal element of the filtered candidates. -/
theorem findBestContract_shape (t : DeliveryInfo) (cs : List Contract) :
    (cs.filter (matcherFilter t) = [] ∧
      findBestContract t cs =
        { contract := none, matchType := MatchType.spot, confidence := 0 }) ∨
    (∃ c, findBestContract t cs =
        { contract := some c, matchType := MatchType.exact, confidence := 100 } ∧
      c ∈ cs.filter (matcherFilter t) ∧
      ∀ d ∈ cs.filter (matcherFilter t), endLe c d = true) := by
  by_cases h : (cs.filter (matcherFilter t)).isEmpty
  · left
    refine ⟨List.isEmpty_iff.mp h, ?_⟩
    unfold findBestContract
    simp [h]
  · right
    have hne : cs.filter (matcherFilter t) ≠ [] := by
      simpa [List.isEmpty_iff] using h
    have hmne : (cs.filter (matcherFilter t)).mergeSort endLe ≠ [] := by
      intro h0
      apply hne
      have h2 := (List.mergeSort_perm (cs.filter (matcherFilter t)) endLe).symm
      rw [h0] at h2
      exact h2.eq_nil
    obtain ⟨c, tl, hct⟩ := List.exists_cons_of_ne_nil hmne
    obtain ⟨hcmem, hcmin⟩ := mergeSort_head_min _ c tl hct
    refine ⟨c, ?_, hcmem, hcmin⟩
    unfold findBestContract
    simp [h, hct]

/-- C10: `findBestContract` returns exactly one of two result shapes —
either no contract with match type `spot` and confidence 0, or a contract
drawn from the supplied candidate list with match type `exact` and
confidence 100; the declared types `fuzzy` and `overfill` are never
produced. -/
theorem findBestContract_two_shapes (t : DeliveryInfo) (cs : List Contract) :
    findBestContract t cs =
        { contract := none, matchType := MatchType.spot, confidence := 0 } ∨
    ∃ c, findBestContract t cs =
        { contract := some c, matchType := MatchType.exact, confidence := 100 } ∧
      c ∈ cs := by
  rcases findBestContract_shape t cs with ⟨_, heq⟩ | ⟨c, heq, hc, _⟩
  · exact Or.inl heq
  · exact Or.inr ⟨c, heq, List.mem_of_mem_filter hc⟩

/-- C8: with at least one eligible candidate the matcher returns an
eligible candidate whose end date is soonest (`endLe`-minimal, a missing
end date sorting last); with none it returns no contract and the caller's
approve handler proceeds to the spot-sale branch. -/
theorem findBestContract_soonest_end (sel : TicketRow) (cs : List Contract) :
    (cs.filter (matcherFilter (deliveryInfo sel)) ≠ [] →
      ∃ c, (findBestContract (deliveryInfo sel) cs).contract = some c ∧
        c ∈ cs.filter (matcherFilter (deliveryInfo sel)) ∧
        ∀ d ∈ cs.filter (matcherFilter (deliveryInfo sel)), endLe c d = true) ∧
    (cs.filter (matcherFilter (deliveryInfo sel)) = [] →
      (findBestContract (deliveryInfo sel) cs).contract = none ∧
        handleApproveDecision sel cs = ApproveOutcome.spotSale) := by
  rcases findBestContract_shape (deliveryInfo sel) cs with ⟨hfil, heq⟩ | ⟨c, heq, hc, hmin⟩
  · constructor
    · intro hne
      exact absurd hfil hne
    · intro _
      refine ⟨by simp [heq], ?_⟩
      unfold handleApproveDecision
      rw [heq]
      rfl
  · constructor
    · intro _
      exact ⟨c, by simp [heq], hc, hmin⟩
    · intro hnil
      rw [hnil] at hc
      simp at hc

/-- Witness for `findBestContract_soonest_end` at a concrete input with
no eligible candidate. -/
theorem findBestContract_soonest_end_witness :
    (findBestContract (deliveryInfo rollTicket) []).contract = none ∧
      handleApproveDecision rollTicket [] = ApproveOutcome.spotSale :=
  (findBestContract_soonest_end rollTicket []).2 (by decide)

/-- C3: for a ticket the matcher bound to contract `c`, the approve
handler opens the overfill modal exactly when
`c.delivered_bushels + ticket.bushels` strictly exceeds
`c.contracted_bushels` and overfill is disallowed; reaching the target
exactly approves directly. -/
theorem approve_overfill_boundary (t : TicketRow) (cs : List Contract) (c : Contract)
    (h : (findBestContract (deliveryInfo t) cs).contract = some c) :
    handleApproveDecision t cs = ApproveOutcome.overfillPrompt c ↔
      c.delivered_bushels + t.bushels > c.contracted_bushels ∧
        c.overfill_allowed = false := by
  rcases findBestContract_shape (deliveryInfo t) cs with ⟨_, heq⟩ | ⟨c2, heq, _, _⟩
  · rw [heq] at h
    simp at h
  · rw [heq] at h
    simp only [Option.some.injEq] at h
    rw [h] at heq
    have hred : handleApproveDecision t cs =
        (if (decide (c.delivered_bushels + t.bushels > c.contracted_bushels) &&
            !c.overfill_allowed) = true then ApproveOutcome.overfillPrompt c
          else ApproveOutcome.approveTo c) := by
      unfold handleApproveDecision
      rw [heq]
      rfl
    have hcond : (decide (c.delivered_bushels + t.bushels > c.contracted_bushels) &&
        !c.overfill_allowed) = true ↔
        (c.delivered_bushels + t.bushels > c.contracted_bushels ∧
          c.overfill_allowed = false) := by
      simp [Bool.and_eq_true, decide_eq_true_eq, Bool.not_eq_true']
    rw [hred]
    by_cases hb : (decide (c.delivered_bushels + t.bushels > c.contracted_bushels) &&
        !c.overfill_allowed) = true
    · rw [if_pos hb]
      exact ⟨fun _ => hcond.mp hb, fun _ => rfl⟩
    · rw [if_neg hb]
      constructor
      · intro habs
        exact absurd habs (by simp)
      · intro hrhs
        exact absurd (hcond.mpr hrhs) hb

set_option maxRecDepth 8000 in
/-- Witness for `approve_overfill_boundary`: 990 + 60 > 1000 with
overfill disallowed opens the modal. -/
theorem approve_overfill_boundary_witness :
    handleApproveDecision rollTicket [matchedSpot] =
      ApproveOutcome.overfillPrompt matchedSpot :=
  (approve_overfill_boundary rollTicket [matchedSpot] matchedSpot
    (by with_unfolding_all decide)).mpr (by with_unfolding_all decide)

/-- C5: when the matcher finds no contract, the approve handler inserts
the synthesized spot-sale contract first and then, referencing the id the
store assigned to it, marks the ticket approved and bound to it — never
approved with a null `contract_id`. -/
theorem approve_spot_path (t : TicketRow) (cs : List Contract) (newId : Nat)
    (dateStr randStr : String)
    (h : (findBestContract (deliveryInfo t) cs).contract = none) :
    handleApproveEffects t cs newId dateStr randStr =
      [DbEffect.insertContract (createSpotSaleContract (spotInfo t) dateStr randStr),
       DbEffect.updateTicket t.id TStatus.approved (some newId)] ∧
    (createSpotSaleContract (spotInfo t) dateStr randStr).is_spot_sale = true := by
  have hdec : handleApproveDecision t cs = ApproveOutcome.spotSale := by
    rcases findBestContract_shape (deliveryInfo t) cs with ⟨_, heq⟩ | ⟨c, heq, _, _⟩
    · unfold handleApproveDecision
      rw [heq]
      rfl
    · rw [heq] at h
      simp at h
  unfold handleApproveEffects
  rw [hdec]
  exact ⟨rfl, rfl⟩

/-- Witness for `approve_spot_path` at a concrete ticket with no
candidates. -/
theorem approve_spot_path_witness :
    handleApproveEffects rollTicket [] 42 "10/1/2025" "0.abcdef" =
      [DbEffect.insertContract
        (createSpotSaleContract (spotInfo rollTicket) "10/1/2025" "0.abcdef"),
       DbEffect.updateTicket rollTicket.id TStatus.approved (some 42)] ∧
    (createSpotSaleContract (spotInfo rollTicket) "10/1/2025" "0.abcdef").is_spot_sale
      = true :=
  approve_spot_path rollTicket [] 42 "10/1/2025" "0.abcdef" (by decide)

/-- C9: the validating approve handler transitions a ticket to approved
exactly when person, crop, delivery location and origin are non-blank and
bushels is positive; otherwise it returns the field-level error message
of the first missing field and issues no store write, and on success the
single write is the approval update. -/
theorem approve_requires_fields (form : ApprovalForm) (ticketId : Nat)
    (matchId : Option Nat) :
    ((handleApproveV1 form ticketId matchId).isOk = true ↔
      (form.person.trim ≠ "" ∧ form.crop.trim ≠ "" ∧ 0 < form.bushels ∧
        form.delivery_location.trim ≠ "" ∧ form.origin.trim ≠ "")) ∧
    (∀ effs, handleApproveV1 form ticketId matchId = Except.ok effs →
      effs = [DbEffect.updateTicket ticketId TStatus.approved matchId]) ∧
    (∀ e, handleApproveV1 form ticketId matchId = Except.error e →
      e = "Person is required" ∨ e = "Crop is required" ∨
        e = "Bushels must be > 0" ∨ e = "Delivery location is required" ∨
        e = "Origin is required") := by
  unfold handleApproveV1
  split_ifs with h1 h2 h3 h4 h5 <;> simp_all [Except.isOk, Except.toBool, not_le]

/-- Witness for `approve_requires_fields`: a fully filled-in form is
approved with the single binding write. -/
theorem approve_requires_fields_witness :
    (handleApproveV1 validForm 1 (some 2)).isOk = true :=
  (approve_requires_fields validForm 1 (some 2)).1.mpr
    (by with_unfolding_all decide)

/-- C7 (amended): the roll resolution restricts candidates to same
owner, crop and exact `through` with `percent_filled < 100`, excluding
the matched contract (destination and the spot-sale flag are not
re-checked); it binds the ticket to the `endLe`-soonest such candidate
and falls back to the spot-sale synthesizer when none exists. -/
theorem roll_restricted_filter (sel : TicketRow) (cs : List Contract) (c : Contract)
    (dateStr randStr : String)
    (h : (findBestContract (deliveryInfo sel) cs).contract = some c) :
    (rollFilter sel c cs = [] →
      handleOverfillRoll sel cs dateStr randStr =
        some (RollOutcome.spotFallback
          (createSpotSaleContract (spotInfo sel) dateStr randStr))) ∧
    (∀ d, handleOverfillRoll sel cs dateStr randStr =
        some (RollOutcome.bindTo d) →
      d ∈ rollFilter sel c cs ∧ ∀ e ∈ rollFilter sel c cs, endLe d e = true) ∧
    (rollFilter sel c cs ≠ [] →
      ∃ d, handleOverfillRoll sel cs dateStr randStr =
        some (RollOutcome.bindTo d)) := by
  have hun : handleOverfillRoll sel cs dateStr randStr =
      (if (rollFilter sel c cs).isEmpty then
        some (RollOutcome.spotFallback
          (createSpotSaleContract (spotInfo sel) dateStr randStr))
      else
        match ((rollFilter sel c cs).mergeSort endLe).head? with
        | some nextContract => some (RollOutcome.bindTo nextContract)
        | none =>
          some (RollOutcome.spotFallback
            (createSpotSaleContract (spotInfo sel) dateStr randStr))) := by
    unfold handleOverfillRoll
    rw [h]
  refine ⟨?_, ?_, ?_⟩
  · intro hnil
    rw [hun]
    simp [hnil]
  · intro d hd
    rw [hun] at hd
    by_cases hemp : (rollFilter sel c cs).isEmpty = true
    · rw [if_pos hemp] at hd
      simp at hd
    · rw [if_neg hemp] at hd
      cases hms : (rollFilter sel c cs).mergeSort endLe with
      | nil =>
        rw [hms] at hd
        simp at hd
      | cons c0 tl =>
        rw [hms] at hd
        simp only [List.head?_cons, Option.some.injEq, RollOutcome.bindTo.injEq] at hd
        rw [← hd]
        exact mergeSort_head_min _ c0 tl hms
  · intro hne
    have hemp : ¬ (rollFilter sel c cs).isEmpty = true := by
      simpa [List.isEmpty_iff] using hne
    have hmne : (rollFilter sel c cs).mergeSort endLe ≠ [] := by
      intro h0
      apply hne
      have h2 := (List.mergeSort_perm (rollFilter sel c cs) endLe).symm
      rw [h0] at h2
      exact h2.eq_nil
    obtain ⟨c0, tl, hms⟩ := List.exists_cons_of_ne_nil hmne
    refine ⟨c0, ?_⟩
    rw [hun, if_neg hemp, hms]
    rfl

set_option maxRecDepth 8000 in
/-- C7 counterexample: on a concrete input the roll branch binds the
ticket to a candidate whose destination does not match the delivery
location, i.e. a candidate the §4.1 eligibility predicate rejects — so
the roll search does not use the §4.1 predicate. -/
theorem roll_ignores_destination :
    handleOverfillRoll rollTicket [matchedSpot, otherDest] "10/1/2025" "0.abcdef"
      = some (RollOutcome.bindTo otherDest) ∧
    specEligible (deliveryInfo rollTicket) otherDest = false := by
  with_unfolding_all decide

set_option maxRecDepth 8000 in
/-- Witness for `roll_restricted_filter`: with no other candidate, the
roll branch falls back to the spot-sale synthesizer. -/
theorem roll_restricted_filter_witness :
    handleOverfillRoll rollTicket [matchedSpot] "10/1/2025" "0.abcdef" =
      some (RollOutcome.spotFallback
        (createSpotSaleContract (spotInfo rollTicket) "10/1/2025" "0.abcdef")) :=
  (roll_restricted_filter rollTicket [matchedSpot] matchedSpot "10/1/2025" "0.abcdef"
    (by with_unfolding_all decide)).1 (by with_unfolding_all decide)

set_option maxRecDepth 8000 in
/-- C1: the ledger invariant is broken by the trigger.  Starting from a
consistent database (contract 1 with one approved, non-deleted bound
ticket of 100 bushels), a plain UPDATE that writes the same approved row
back (for example an edit of its notes) leaves `delivered_bushels = 0`,
while the sum over approved, non-deleted bound tickets is 100: the
trigger's second IF block re-runs on every UPDATE and overwrites the
correct total with one that excludes the still-approved row itself. -/
theorem ledger_invariant_breaks_on_update :
    ledgerConsistent dbC1 ∧
    (runTicketOp (TgOp.upd t100 t100) dbC1).tickets = [t100] ∧
    (runTicketOp (TgOp.upd t100 t100) dbC1).contracts =
      [{ id := 1, contracted_bushels := 1000, delivered_bushels := 0 }] ∧
    ledgerSpecSum (runTicketOp (TgOp.upd t100 t100) dbC1).tickets 1 = 100 ∧
    ¬ ledgerConsistent (runTicketOp (TgOp.upd t100 t100) dbC1) := by
  with_unfolding_all decide

set_option maxRecDepth 8000 in
/-- C4: the recomputation does not include the post-image.  Editing the
approved bound ticket's bushels from 100 to 120 (same contract, still
approved) leaves the contract's `delivered_bushels` at 0 instead of 120:
the exclusion `id != COALESCE(NEW.id, OLD.id)` in the trigger's second
IF block drops the still-approved post-image from the sum. -/
theorem recompute_excludes_post_image :
    t120.status = TStatus.approved ∧ t120.contract_id = some 1 ∧
    t120.deleted = false ∧ t120.bushels = 120 ∧
    (runTicketOp (TgOp.upd t100 t120) dbC1).tickets = [t120] ∧
    (runTicketOp (TgOp.upd t100 t120) dbC1).contracts =
      [{ id := 1, contracted_bushels := 1000, delivered_bushels := 0 }] := by
  with_unfolding_all decide

set_option maxRecDepth 8000 in
/-- C2: the code's eligibility filter diverges from the claimed
predicate at a concrete candidate.  A non-spot contract matching the
delivery on every claimed condition is rejected by `matcherFilter`
(whose final conjunct `!notSpot` demands `is_spot_sale = true`), while
the same contract with the flag set is accepted; and a candidate whose
`through` is the wildcard `Any` is rejected even with the flag set,
because the filter compares `through` only for exact equality. -/
theorem matcher_filter_requires_spot_flag :
    specEligible deliveryKarl contractKarl = true ∧
    matcherFilter deliveryKarl contractKarl = false ∧
    (findBestContract deliveryKarl [contractKarl]).contract = none ∧
    matcherFilter deliveryKarl { contractKarl with is_spot_sale := true } = true ∧
    specEligible deliveryKarl { contractKarl with through := some "Any" } = true ∧
    matcherFilter deliveryKarl
      { contractKarl with through := some "Any", is_spot_sale := true } = false := by
  with_unfolding_all decide

theorem base36DigitChar_bound :
    ∀ d : Nat, d ≤ 35 → (isLowerAlnum (base36DigitChar d) = true ∧
      isUpperAlnum ((base36DigitChar d).toUpper) = true) := by
  decide

/-- Every character emitted by the base-36 expansion of a rational in
`[0, 1)` is a base-36 digit character. -/
theorem base36FracDigits_mem (n : Nat) (r : ℚ) (h0 : 0 ≤ r) (h1 : r < 1) :
    ∀ c ∈ base36FracDigits n r, ∃ d, d ≤ 35 ∧ c = base36DigitChar d := by
  induction n generalizing r with
  | zero => simp [base36FracDigits]
  | succ n ih =>
    by_cases hr : r = 0
    · simp [base36FracDigits, hr]
    · intro c hc
      rw [base36FracDigits, if_neg hr] at hc
      have h36 : (0:ℚ) ≤ r * 36 := by positivity
      have h36lt : r * 36 < 36 := by nlinarith
      have hfl0 : (0:ℤ) ≤ Int.floor (r * 36) := Int.floor_nonneg.mpr h36
      have hfl36 : Int.floor (r * 36) < 36 := by
        rw [Int.floor_lt]
        exact_mod_cast h36lt
      rcases List.mem_cons.mp hc with rfl | hc2
      · refine ⟨(Int.floor (r * 36)).toNat, ?_, rfl⟩
        omega
      · have hfr : r * 36 - ((Int.floor (r * 36) : ℤ) : ℚ) = Int.fract (r * 36) := rfl
        refine ih (r * 36 - ((Int.floor (r * 36) : ℤ) : ℚ)) ?_ ?_ c hc2
        · rw [hfr]
          exact Int.fract_nonneg (r * 36)
        · rw [hfr]
          exact Int.fract_lt_one (r * 36)

/-- The generated random suffix drawn from a `Math.random()` value: at
most six characters, all upper-case alphanumeric. -/
theorem spotRandSuffix_shape (r : ℚ) (h0 : 0 ≤ r) (h1 : r < 1) :
    (spotRandSuffix (jsToString36 r)).length ≤ 6 ∧
    ∀ c ∈ (spotRandSuffix (jsToString36 r)).data, isUpperAlnum c = true := by
  unfold spotRandSuffix jsToString36
  by_cases hr : r = 0
  · rw [if_pos hr]
    exact ⟨by decide, by decide⟩
  · rw [if_neg hr]
    have hdigs := base36FracDigits_mem 60 r h0 h1
    constructor
    · show (String.mk _).length ≤ 6
      simp only [String.length, List.length_map, List.length_take, String.data]
      omega
    · intro c hc
      simp only [String.data, List.mem_map] at hc
      obtain ⟨c0, hc0, rfl⟩ := hc
      have hc0' : c0 ∈ base36FracDigits 60 r := List.mem_of_mem_take hc0
      obtain ⟨d, hd, rfl⟩ := hdigs c0 hc0'
      exact (base36DigitChar_bound d hd).2

set_option maxRecDepth 8000 in
/-- C6 counterexample: `Math.random()` can return `0.5`, whose base-36
string is `"0.i"`; the generated suffix is then the single character
`"I"`, shorter than the claimed six alphanumeric characters. -/
theorem spot_suffix_can_be_short :
    (0:ℚ) ≤ 1/2 ∧ (1/2:ℚ) < 1 ∧
    jsToString36 (1/2) = "0.i" ∧
    spotRandSuffix (jsToString36 (1/2)) = "I" ∧
    (spotRandSuffix (jsToString36 (1/2))).length = 1 ∧
    (createSpotSaleContract spotTicketSample "10/1/2025"
        (jsToString36 (1/2))).contract_number = "SPOT-10/1/2025-I" := by
  with_unfolding_all decide

/-- C6 (amended): for every well-formed input the synthesizer returns a
contract with zero contracted bushels, overfill allowed, priority 10, not
a template, the spot-sale flag set, start and end date equal to the
ticket date, and a contract number whose random suffix has at most six
upper-case alphanumeric characters (exactly six unless the random
value's base-36 expansion terminates early). -/
theorem createSpotSale_shape (t : SpotTicketInfo) (dateStr : String) (r : ℚ)
    (h0 : 0 ≤ r) (h1 : r < 1) :
    ((createSpotSaleContract t dateStr (jsToString36 r)).contracted_bushels = 0 ∧
      (createSpotSaleContract t dateStr (jsToString36 r)).overfill_allowed = true ∧
      (createSpotSaleContract t dateStr (jsToString36 r)).priority = 10 ∧
      (createSpotSaleContract t dateStr (jsToString36 r)).is_template = false ∧
      (createSpotSaleContract t dateStr (jsToString36 r)).is_spot_sale = true ∧
      (createSpotSaleContract t dateStr (jsToString36 r)).start_date = t.ticket_date ∧
      (createSpotSaleContract t dateStr (jsToString36 r)).end_date = t.ticket_date ∧
      (createSpotSaleContract t dateStr (jsToString36 r)).contract_number =
        "SPOT-" ++ dateStr ++ "-" ++ spotRandSuffix (jsToString36 r)) ∧
    ((spotRandSuffix (jsToString36 r)).length ≤ 6 ∧
      ∀ c ∈ (spotRandSuffix (jsToString36 r)).data, isUpperAlnum c = true) := by
  exact ⟨⟨rfl, rfl, rfl, rfl, rfl, rfl, rfl, rfl⟩, spotRandSuffix_shape r h0 h1⟩

/-- Witness for `createSpotSale_shape` at the random draw `1/3`. -/
theorem createSpotSale_shape_witness :
    (spotRandSuffix (jsToString36 (1/3:ℚ))).length ≤ 6 :=
  (createSpotSale_shape spotTicketSample "10/1/2025" (1/3)
    (by with_unfolding_all decide) (by with_unfolding_all decide)).2.1
